import Mathlib

/-!
Verification of the Ledger Aggregation & Amortization Engine of the
finance-manager repository (`server/storage.ts`, `server/routes.ts`,
`shared/schema.ts`).

Shallow embedding conventions:
* JavaScript numbers (expense amounts, salaries, totals) are modelled as `Int`;
  all arithmetic performed by the source on these values is addition,
  subtraction and multiplication of validated numeric input.
* MongoDB documents are held in a list (`ExpenseStore.docs` resp. `List EMI`);
  `findOne` is `List.find?` of the query predicate, `findOneAndUpdate` with
  `new: true` returns the rewritten first match (`findAndUpdate` below),
  `updateOne` rewrites the first match in place (`updateFirst` below).
* `randomUUID` document ids are modelled as values of a fresh-id counter
  (`ExpenseStore.nextId`): the model realizes the uniqueness that fresh UUIDs
  provide.
* Promise-returning methods are pure state-passing functions; a resolved
  `undefined` is `none`, a thrown `Error` is `Except.error`.
* `date-fns` `parse(s, "yyyy-MM", ...)`, `addMonths` and `format(d, "yyyy-MM")`
  (external library calls) are modelled by `parseMonth`, `addMonthsYM` and
  `monthString` on (year, month) pairs.
-/

namespace FinanceManager

/-- One expense line item (`expenseItemSchema` in `shared/schema.ts`).
`mongoId` models the optional Mongo-assigned `_id` of the subdocument. -/
structure ExpenseItem where
  mongoId : Option String
  purpose : String
  amount : Int
deriving Repr, DecidableEq

/-- One day inside a month ledger (`expenseDaySchema`). -/
structure ExpenseDayRec where
  date : String
  items : List ExpenseItem
  dayTotal : Int
deriving Repr, DecidableEq

/-- A month ledger document (`dailyExpenseSchema`). -/
structure DailyExpense where
  id : Nat
  userId : String
  month : String
  salaryCredited : Int
  days : List ExpenseDayRec
  monthlyTotal : Int
  balance : Int
deriving Repr, DecidableEq

/-- The `DailyExpenseModel` collection together with the fresh-id counter. -/
structure ExpenseStore where
  docs : List DailyExpense
  nextId : Nat
deriving Repr, DecidableEq

/-- Rewrite the first element satisfying `p` by `f` (Mongo update of the
first matching document). -/
def updateFirst {α : Type} (p : α → Bool) (f : α → α) : List α → List α
  | [] => []
  | a :: l => if p a then f a :: l else a :: updateFirst p f l

/-- `findOneAndUpdate` with `new: true`: the rewritten first match (if any)
together with the rewritten collection. -/
def findAndUpdate {α : Type} (p : α → Bool) (f : α → α) (l : List α) :
    Option α × List α :=
  ((l.find? p).map f, updateFirst p f l)

/-- The `{ userId, month }` Mongo query used by every ledger method. -/
def keyMatch (userId month : String) (d : DailyExpense) : Bool :=
  d.userId == userId && d.month == month

/-- `MongoStorage.getExpenseByMonth`: `findOne({ userId, month })`. -/
def findMonth (s : ExpenseStore) (userId month : String) : Option DailyExpense :=
  s.docs.find? (keyMatch userId month)

/-- `items.reduce((sum, item) => sum + item.amount, 0)`. -/
def itemsTotal (items : List ExpenseItem) : Int :=
  (items.map (·.amount)).sum

/-- The pure part of `MongoStorage.recalculateMonthTotals`: recompute every
`dayTotal`, then `monthlyTotal`, then `balance`. -/
def recalcFields (d : DailyExpense) : DailyExpense :=
  let days := d.days.map (fun day => { day with dayTotal := itemsTotal day.items })
  let monthlyTotal := (days.map (·.dayTotal)).sum
  { d with days := days, monthlyTotal := monthlyTotal,
           balance := d.salaryCredited - monthlyTotal }

/-- `MongoStorage.recalculateMonthTotals`: recompute the totals of `monthDoc`
and `$set` them on the document found by `{ id: monthDoc.id }`; returns the
updated document (`updated || monthDoc`). -/
def recalculateMonthTotals (s : ExpenseStore) (monthDoc : DailyExpense) :
    DailyExpense × ExpenseStore :=
  let rd := recalcFields monthDoc
  let res := findAndUpdate (fun e => e.id == monthDoc.id)
    (fun e => { e with days := rd.days, monthlyTotal := rd.monthlyTotal,
                       balance := rd.balance }) s.docs
  (res.1.getD rd, { s with docs := res.2 })

/-- `MongoStorage.createExpenseMonth`.  `salaryCredited` is the optional
`data.salaryCredited`; `x || 0` on a number equals `Option.getD 0` here. -/
def createExpenseMonth (s : ExpenseStore) (userId month : String)
    (salaryCredited : Option Int) : Except String (DailyExpense × ExpenseStore) :=
  match findMonth s userId month with
  | some _ => .error "Month already exists"
  | none =>
    let sal := salaryCredited.getD 0
    let doc : DailyExpense :=
      { id := s.nextId, userId := userId, month := month, salaryCredited := sal,
        days := [], monthlyTotal := 0, balance := sal }
    .ok (doc, { docs := s.docs ++ [doc], nextId := s.nextId + 1 })

/-- Replace the `days` field (the `$set { days: updatedDays }` update). -/
def setDays (days : List ExpenseDayRec) : DailyExpense → DailyExpense :=
  fun d => { d with days := days }

/-- The fresh document value built inside `createExpenseMonth`. -/
def mkFreshDoc (s : ExpenseStore) (userId month : String) (sal : Int) :
    DailyExpense :=
  { id := s.nextId, userId := userId, month := month, salaryCredited := sal,
    days := [], monthlyTotal := 0, balance := sal }

/-- The `findOneAndUpdate({userId, month}, {$set ...})`-then-
`recalculateMonthTotals` tail shared verbatim by the salary/day/item
mutators of `MongoStorage`. -/
def updateMonthAndRecalc (s : ExpenseStore) (userId month : String)
    (f : DailyExpense → DailyExpense) : Option DailyExpense × ExpenseStore :=
  match findAndUpdate (keyMatch userId month) f s.docs with
  | (none, docs2) => (none, { s with docs := docs2 })
  | (some updated, docs2) =>
    let r := recalculateMonthTotals { s with docs := docs2 } updated
    (some r.1, r.2)

/-- `MongoStorage.updateExpenseMonthSalary`. -/
def updateExpenseMonthSalary (s : ExpenseStore) (userId month : String)
    (salaryCredited : Int) : Option DailyExpense × ExpenseStore :=
  match findMonth s userId month with
  | none => (none, s)
  | some _ =>
    updateMonthAndRecalc s userId month
      (fun d => { d with salaryCredited := salaryCredited })

/-- The `updatedDays` computation of `MongoStorage.addExpenseDay`: append the
new items to an already existing day, otherwise push a fresh day with its
`dayTotal`. -/
def buildUpdatedDays (days : List ExpenseDayRec) (date : String)
    (items : List ExpenseItem) : List ExpenseDayRec :=
  if days.any (fun d => d.date == date) then
    updateFirst (fun d => d.date == date)
      (fun d => { d with items := d.items ++ items }) days
  else
    days ++ [{ date := date, items := items, dayTotal := itemsTotal items }]

/-- `MongoStorage.addExpenseDay`.  When the month is absent it is created
implicitly via `createExpenseMonth` (whose exception would propagate) and
re-fetched. -/
def addExpenseDay (s : ExpenseStore) (userId month date : String)
    (items : List ExpenseItem) :
    Except String (Option DailyExpense × ExpenseStore) :=
  match findMonth s userId month with
  | some monthDoc =>
    .ok (updateMonthAndRecalc s userId month
          (fun d => { d with days := buildUpdatedDays monthDoc.days date items }))
  | none =>
    match createExpenseMonth s userId month (some 0) with
    | .error msg => .error msg
    | .ok (_, s1) =>
      match findMonth s1 userId month with
      | none => .ok (none, s1)
      | some monthDoc =>
        .ok (updateMonthAndRecalc s1 userId month
              (fun d => { d with days := buildUpdatedDays monthDoc.days date items }))

/-- `MongoStorage.updateExpenseDay`: replace the full item list of an
existing day. -/
def updateExpenseDay (s : ExpenseStore) (userId month date : String)
    (items : List ExpenseItem) : Option DailyExpense × ExpenseStore :=
  match findMonth s userId month with
  | none => (none, s)
  | some monthDoc =>
    if monthDoc.days.any (fun d => d.date == date) then
      let updatedDays := updateFirst (fun dd => dd.date == date)
        (fun _ => { date := date, items := items, dayTotal := itemsTotal items })
        monthDoc.days
      updateMonthAndRecalc s userId month (fun d => { d with days := updatedDays })
    else (none, s)

/-- `MongoStorage.deleteExpenseDay`: `days.filter((d) => d.date !== date)`. -/
def deleteExpenseDay (s : ExpenseStore) (userId month date : String) :
    Option DailyExpense × ExpenseStore :=
  match findMonth s userId month with
  | none => (none, s)
  | some monthDoc =>
    updateMonthAndRecalc s userId month
      (fun d => { d with days := monthDoc.days.filter (fun dd => !(dd.date == date)) })

/-- The item filter of `MongoStorage.deleteExpenseDayItem`: drop by Mongo
`_id` when present, by position otherwise. -/
def filterDayItems (items : List ExpenseItem) (itemId : String) : List ExpenseItem :=
  (items.enum.filter (fun p =>
    match p.2.mongoId with
    | some mid => !(mid == itemId)
    | none => !(toString p.1 == itemId))).map (fun p => p.2)

/-- `MongoStorage.deleteExpenseDayItem`. -/
def deleteExpenseDayItem (s : ExpenseStore) (userId month date itemId : String) :
    Option DailyExpense × ExpenseStore :=
  match findMonth s userId month with
  | none => (none, s)
  | some monthDoc =>
    if monthDoc.days.any (fun d => d.date == date) then
      let updatedDays := updateFirst (fun dd => dd.date == date)
        (fun dd => { dd with items := filterDayItems dd.items itemId })
        monthDoc.days
      updateMonthAndRecalc s userId month (fun d => { d with days := updatedDays })
    else (none, s)

/-- The mutating ledger operations of the storage layer. -/
inductive LedgerOp where
  | createMonth (userId month : String) (salaryCredited : Option Int)
  | setSalary (userId month : String) (salaryCredited : Int)
  | addDay (userId month date : String) (items : List ExpenseItem)
  | updateDay (userId month date : String) (items : List ExpenseItem)
  | deleteDay (userId month date : String)
  | deleteItem (userId month date itemId : String)
deriving Repr, DecidableEq

/-- Effect of one ledger operation on the collection (errors and `undefined`
results leave the collection as the method left it). -/
def applyOp (s : ExpenseStore) : LedgerOp → ExpenseStore
  | .createMonth u m sal =>
    match createExpenseMonth s u m sal with
    | .ok r => r.2
    | .error _ => s
  | .setSalary u m sal => (updateExpenseMonthSalary s u m sal).2
  | .addDay u m date items =>
    match addExpenseDay s u m date items with
    | .ok r => r.2
    | .error _ => s
  | .updateDay u m date items => (updateExpenseDay s u m date items).2
  | .deleteDay u m date => (deleteExpenseDay s u m date).2
  | .deleteItem u m date itemId => (deleteExpenseDayItem s u m date itemId).2

/-- The empty collection. -/
def emptyStore : ExpenseStore := { docs := [], nextId := 0 }

/-- Run a sequence of mutating operations from the empty collection. -/
def runOps (ops : List LedgerOp) : ExpenseStore :=
  ops.foldl applyOp emptyStore

/-- The MonthLedger derived-field invariant: every `dayTotal` is the sum of
its items, `monthlyTotal` the sum of the day totals, `balance` the salary
minus `monthlyTotal`. -/
def ledgerInv (d : DailyExpense) : Prop :=
  (∀ day ∈ d.days, day.dayTotal = itemsTotal day.items) ∧
  d.monthlyTotal = (d.days.map (·.dayTotal)).sum ∧
  d.balance = d.salaryCredited - d.monthlyTotal

instance (d : DailyExpense) : Decidable (ledgerInv d) := by
  unfold ledgerInv; infer_instance

/-- Store well-formedness carried through the reachability induction:
unique document ids, ids below the fresh counter, and the ledger invariant
for every document. -/
def GoodStore (s : ExpenseStore) : Prop :=
  (s.docs.map (fun x => x.id)).Nodup ∧
  (∀ d ∈ s.docs, d.id < s.nextId) ∧
  (∀ d ∈ s.docs, ledgerInv d)

/-! ### EMI model (`emiSchema`, `MongoStorage.createEmi` / `updateEmiSchedule`) -/

/-- Payment status of one schedule entry (`z.enum(["paid", "unpaid"])`). -/
inductive PayStatus where
  | paid
  | unpaid
deriving Repr, DecidableEq

/-- One schedule entry (`emiScheduleItemSchema`). -/
structure EMIScheduleItem where
  month : String
  amount : Int
  status : PayStatus
deriving Repr, DecidableEq

/-- An EMI document (`emiSchema`). -/
structure EMI where
  id : Nat
  userId : String
  emiTitle : String
  startMonth : String
  emiAmountPerMonth : Int
  emiDuration : Nat
  emiSchedule : List EMIScheduleItem
  remainingAmount : Int
  totalAmount : Int
deriving Repr, DecidableEq

/-- Numeric value of a decimal digit character. -/
def digitVal (c : Char) : Nat := c.toNat - 48

/-- `date-fns` `parse(s, "yyyy-MM", ...)`: a 4-digit year and a 2-digit month
in 1..12; anything else yields an invalid date (modelled as `none`). -/
def parseMonth (s : String) : Option (Nat × Nat) :=
  match s.toList with
  | [y1, y2, y3, y4, dash, m1, m2] =>
    if y1.isDigit && y2.isDigit && y3.isDigit && y4.isDigit && dash == '-' &&
        m1.isDigit && m2.isDigit then
      let y := ((digitVal y1 * 10 + digitVal y2) * 10 + digitVal y3) * 10 + digitVal y4
      let m := digitVal m1 * 10 + digitVal m2
      if 1 ≤ m && m ≤ 12 then some (y, m) else none
    else none
  | _ => none

/-- Left-pad a numeral to two digits (`format` token `MM`). -/
def pad2 (n : Nat) : String :=
  if n < 10 then "0" ++ toString n else toString n

/-- Left-pad a numeral to four digits (`format` token `yyyy`). -/
def pad4 (n : Nat) : String :=
  if n < 10 then "000" ++ toString n
  else if n < 100 then "00" ++ toString n
  else if n < 1000 then "0" ++ toString n
  else toString n

/-- `format(d, "yyyy-MM")`. -/
def monthString (y m : Nat) : String := pad4 y ++ "-" ++ pad2 m

/-- `date-fns` `addMonths` on a (year, month-in-1..12) pair: linear month
index arithmetic with rollover across year boundaries. -/
def addMonthsYM (y m i : Nat) : Nat × Nat :=
  let idx := y * 12 + (m - 1) + i
  (idx / 12, idx % 12 + 1)

/-- The schedule-generation loop of `MongoStorage.createEmi`. -/
def genSchedule (y m : Nat) (amountPerMonth : Int) (duration : Nat) :
    List EMIScheduleItem :=
  (List.range duration).map (fun i =>
    { month := monthString (addMonthsYM y m i).1 (addMonthsYM y m i).2,
      amount := amountPerMonth, status := PayStatus.unpaid })

/-- `MongoStorage.createEmi` (the fresh id is passed in; `parse` failure on a
malformed `startMonth` is the `none` result). -/
def createEmi (id : Nat) (userId emiTitle startMonth : String)
    (emiAmountPerMonth : Int) (emiDuration : Nat) : Option EMI :=
  (parseMonth startMonth).map (fun ym =>
    { id := id, userId := userId, emiTitle := emiTitle, startMonth := startMonth,
      emiAmountPerMonth := emiAmountPerMonth, emiDuration := emiDuration,
      emiSchedule := genSchedule ym.1 ym.2 emiAmountPerMonth emiDuration,
      remainingAmount := emiAmountPerMonth * (emiDuration : Int),
      totalAmount := emiAmountPerMonth * (emiDuration : Int) })

/-- Rewrite the element at position `n` by `f` (Mongo `$set` on an array
index path). -/
def modifyAt {α : Type} (f : α → α) : List α → Nat → List α
  | [], _ => []
  | a :: l, 0 => f a :: l
  | a :: l, n + 1 => a :: modifyAt f l n

/-- Sum of the amounts of the `paid` entries
(`filter(s => s.status === "paid").reduce(...)`). -/
def paidSum (sched : List EMIScheduleItem) : Int :=
  ((sched.filter (fun it => it.status == PayStatus.paid)).map (·.amount)).sum

/-- The `$set emiSchedule.<i>.status` step of `MongoStorage.updateEmiSchedule`. -/
def setStatus (st : PayStatus) (e : EMI) (i : Nat) : EMI :=
  { e with emiSchedule := modifyAt (fun it => { it with status := st }) e.emiSchedule i }

/-- The collection after the status `$set` (first document matching the id). -/
def emiAfterStatusSet (es : List EMI) (id : Nat) (i : Nat) (st : PayStatus) :
    List EMI :=
  updateFirst (fun e => e.id == id) (fun e => setStatus st e i) es

/-- `MongoStorage.updateEmiSchedule`: find the EMI, bounds-check the index
(`undefined`, i.e. `none`, when absent or out of range), `$set` the status,
re-fetch, and `$set` the recomputed `remainingAmount`. -/
def updateEmiSchedule (es : List EMI) (id : Nat) (monthIndex : Int)
    (status : PayStatus) : Option EMI × List EMI :=
  match es.find? (fun e => e.id == id) with
  | none => (none, es)
  | some emi =>
    if monthIndex < 0 ∨ (emi.emiSchedule.length : Int) ≤ monthIndex then (none, es)
    else
      match (emiAfterStatusSet es id monthIndex.toNat status).find?
          (fun e => e.id == id) with
      | none => (none, emiAfterStatusSet es id monthIndex.toNat status)
      | some updatedEmi =>
        findAndUpdate (fun e => e.id == id)
          (fun e => { e with remainingAmount :=
            updatedEmi.totalAmount - paidSum updatedEmi.emiSchedule })
          (emiAfterStatusSet es id monthIndex.toNat status)

instance exceptDecEq {ε α : Type} [DecidableEq ε] [DecidableEq α] :
    DecidableEq (Except ε α) := fun a b =>
  match a, b with
  | .error x, .error y =>
    if h : x = y then isTrue (h ▸ rfl)
    else isFalse (fun hc => h (by injection hc))
  | .error _, .ok _ => isFalse (fun hc => Except.noConfusion hc)
  | .ok _, .error _ => isFalse (fun hc => Except.noConfusion hc)
  | .ok x, .ok y =>
    if h : x = y then isTrue (h ▸ rfl)
    else isFalse (fun hc => h (by injection hc))

/-! ### Route layer (`server/routes.ts`) -/

/-- Outcome of a route handler: 400, 404, 409, `res.json(body)`, or 500. -/
inductive RouteResult (α : Type) where
  | badRequest (msg : String)
  | notFound (msg : String)
  | conflict (msg : String)
  | okJson (body : α)
  | serverError
deriving Repr, DecidableEq

/-- The `^\d{4}-\d{2}$` month-format check of the routes. -/
def isMonthFormatted (s : String) : Bool :=
  match s.toList with
  | [y1, y2, y3, y4, dash, m1, m2] =>
    y1.isDigit && y2.isDigit && y3.isDigit && y4.isDigit &&
    dash == '-' && m1.isDigit && m2.isDigit
  | _ => false

/-- The `^\d{4}-\d{2}-\d{2}$` date-format check of the routes. -/
def isDateFormatted (s : String) : Bool :=
  match s.toList with
  | [y1, y2, y3, y4, da, m1, m2, db, d1, d2] =>
    y1.isDigit && y2.isDigit && y3.isDigit && y4.isDigit && da == '-' &&
    m1.isDigit && m2.isDigit && db == '-' && d1.isDigit && d2.isDigit
  | _ => false

/-- `expenseItemSchema`: non-empty purpose, amount at least 0. -/
def validExpenseItem (it : ExpenseItem) : Bool :=
  1 ≤ it.purpose.length && 0 ≤ it.amount

/-- `insertExpenseDaySchema`: formatted date, at least one valid item. -/
def validInsertExpenseDay (date : String) (items : List ExpenseItem) : Bool :=
  isDateFormatted date && 1 ≤ items.length && items.all validExpenseItem

/-- `POST /api/expenses/month/:month/day`: month-format check, schema check,
date-belongs-to-month check (`date.substring(0, 7) !== month` gives 400),
then `storage.addExpenseDay`. -/
def postExpenseDayRoute (s : ExpenseStore) (userId month date : String)
    (items : List ExpenseItem) : RouteResult DailyExpense × ExpenseStore :=
  if !(isMonthFormatted month) then
    (.badRequest "Invalid month format. Use YYYY-MM", s)
  else if !(validInsertExpenseDay date items) then
    (.badRequest "schema validation failed", s)
  else if !(date.take 7 == month) then
    (.badRequest "Date must belong to the specified month", s)
  else
    match addExpenseDay s userId month date items with
    | .error _ => (.serverError, s)
    | .ok (none, s1) => (.serverError, s1)
    | .ok (some d, s1) => (.okJson d, s1)

/-- `DELETE /api/expenses/month/:month/day/:date`: format checks, 404 when
the month is absent, then `storage.deleteExpenseDay` (404 only when it
resolves `undefined`). -/
def deleteExpenseDayRoute (s : ExpenseStore) (userId month date : String) :
    RouteResult DailyExpense × ExpenseStore :=
  if !(isMonthFormatted month) then
    (.badRequest "Invalid month format. Use YYYY-MM", s)
  else if !(isDateFormatted date) then
    (.badRequest "Invalid date format. Use YYYY-MM-DD", s)
  else
    match findMonth s userId month with
    | none => (.notFound "Month not found", s)
    | some _ =>
      match deleteExpenseDay s userId month date with
      | (none, s1) => (.notFound "Day not found", s1)
      | (some d, s1) => (.okJson d, s1)

/-- `PATCH /api/emis/:id/schedule/:monthIndex`: 404 when the EMI is absent or
owned by another user, then `storage.updateEmiSchedule` whose result is sent
back verbatim with `res.json(updated)` (`undefined` included). -/
def patchEmiScheduleRoute (es : List EMI) (userId : String) (id : Nat)
    (monthIndex : Int) (status : PayStatus) :
    RouteResult (Option EMI) × List EMI :=
  match es.find? (fun e => e.id == id) with
  | none => (.notFound "EMI not found", es)
  | some emi =>
    if !(emi.userId == userId) then (.notFound "EMI not found", es)
    else
      match updateEmiSchedule es id monthIndex status with
      | (r, es2) => (.okJson r, es2)

/-! ### Concrete fixtures used by witnesses and counterexamples -/

/-- A line item without a Mongo `_id`. -/
def foodItem : ExpenseItem := { mongoId := none, purpose := "Food", amount := 200 }

/-- A second line item. -/
def taxiItem : ExpenseItem := { mongoId := none, purpose := "Taxi", amount := 50 }

/-- Create June 2025 with salary 1000 and add one day with one item. -/
def baseOps : List LedgerOp :=
  [LedgerOp.createMonth "u" "2025-06" (some 1000),
   LedgerOp.addDay "u" "2025-06" "2025-06-05" [foodItem]]

/-- The store reached by `baseOps`. -/
def baseStore : ExpenseStore := runOps baseOps

/-- The single document of `baseStore`. -/
def baseDoc : DailyExpense :=
  { id := 0, userId := "u", month := "2025-06", salaryCredited := 1000,
    days := [{ date := "2025-06-05", items := [foodItem], dayTotal := 200 }],
    monthlyTotal := 200, balance := 800 }

/-- A two-installment EMI fixture. -/
def emiEx : EMI :=
  { id := 1, userId := "u", emiTitle := "tv", startMonth := "2025-01",
    emiAmountPerMonth := 500, emiDuration := 2,
    emiSchedule := [{ month := "2025-01", amount := 500, status := PayStatus.unpaid },
                    { month := "2025-02", amount := 500, status := PayStatus.unpaid }],
    remainingAmount := 1000, totalAmount := 1000 }

/-- The EMI produced by `createEmi 10 "u0" "loan" "2025-11" 100 4`. -/
def emiCreated : EMI :=
  { id := 10, userId := "u0", emiTitle := "loan", startMonth := "2025-11",
    emiAmountPerMonth := 100, emiDuration := 4,
    emiSchedule := [{ month := "2025-11", amount := 100, status := PayStatus.unpaid },
                    { month := "2025-12", amount := 100, status := PayStatus.unpaid },
                    { month := "2026-01", amount := 100, status := PayStatus.unpaid },
                    { month := "2026-02", amount := 100, status := PayStatus.unpaid }],
    remainingAmount := 400, totalAmount := 400 }

/-- `emiEx` after marking installment 0 as paid. -/
def emiExPaid : EMI :=
  { id := 1, userId := "u", emiTitle := "tv", startMonth := "2025-01",
    emiAmountPerMonth := 500, emiDuration := 2,
    emiSchedule := [{ month := "2025-01", amount := 500, status := PayStatus.paid },
                    { month := "2025-02", amount := 500, status := PayStatus.unpaid }],
    remainingAmount := 500, totalAmount := 1000 }

/-! ### Generic lemmas about `updateFirst` and `List.find?` -/

theorem updateFirst_nil {α : Type} (p : α → Bool) (f : α → α) :
    updateFirst p f [] = [] := rfl

theorem updateFirst_cons_pos {α : Type} (p : α → Bool) (f : α → α) (a : α)
    (t : List α) (h : p a = true) : updateFirst p f (a :: t) = f a :: t := by
  simp [updateFirst, h]

theorem updateFirst_cons_neg {α : Type} (p : α → Bool) (f : α → α) (a : α)
    (t : List α) (h : p a = false) :
    updateFirst p f (a :: t) = a :: updateFirst p f t := by
  simp [updateFirst, h]

theorem updateFirst_map_key {α β : Type} (k : α → β) (p : α → Bool) (f : α → α)
    (hf : ∀ x, k (f x) = k x) :
    ∀ l : List α, (updateFirst p f l).map k = l.map k := by
  intro l
  induction l with
  | nil => rfl
  | cons a t ih =>
    rcases Bool.eq_false_or_eq_true (p a) with h | h
    · rw [updateFirst_cons_pos p f a t h]; simp [hf]
    · rw [updateFirst_cons_neg p f a t h]; simp [ih]

theorem find?_updateFirst {α : Type} (p : α → Bool) (f : α → α)
    (hp : ∀ x, p x = true → p (f x) = true) :
    ∀ l : List α, (updateFirst p f l).find? p = (l.find? p).map f := by
  intro l
  induction l with
  | nil => rfl
  | cons a t ih =>
    rcases Bool.eq_false_or_eq_true (p a) with h | h
    · rw [updateFirst_cons_pos p f a t h]
      simp [List.find?_cons, h, hp a h]
    · rw [updateFirst_cons_neg p f a t h]
      simp [List.find?_cons, h, ih]

theorem mem_updateFirst {α : Type} (p : α → Bool) (f : α → α) :
    ∀ l : List α, ∀ e ∈ updateFirst p f l,
      e ∈ l ∨ ∃ d, l.find? p = some d ∧ e = f d := by
  intro l
  induction l with
  | nil => intro e he; exact absurd he (List.not_mem_nil e)
  | cons a t ih =>
    intro e he
    rcases Bool.eq_false_or_eq_true (p a) with h | h
    · rw [updateFirst_cons_pos p f a t h] at he
      rcases List.mem_cons.mp he with he1 | he1
      · exact Or.inr ⟨a, by simp [List.find?_cons, h], he1⟩
      · exact Or.inl (List.mem_cons_of_mem _ he1)
    · rw [updateFirst_cons_neg p f a t h] at he
      rcases List.mem_cons.mp he with he1 | he1
      · exact Or.inl (List.mem_cons.mpr (Or.inl he1))
      · rcases ih e he1 with h1 | ⟨d, hd, he2⟩
        · exact Or.inl (List.mem_cons_of_mem _ h1)
        · exact Or.inr ⟨d, by simp [List.find?_cons, h, hd], he2⟩

theorem find?_mem_updateFirst {α : Type} (p : α → Bool) (f : α → α) :
    ∀ l : List α, ∀ d, l.find? p = some d → f d ∈ updateFirst p f l := by
  intro l
  induction l with
  | nil => intro d hd; simp at hd
  | cons a t ih =>
    intro d hd
    rcases Bool.eq_false_or_eq_true (p a) with h | h
    · simp only [List.find?_cons, h] at hd
      rw [updateFirst_cons_pos p f a t h]
      exact List.mem_cons.mpr
        (Or.inl (congrArg f (Option.some.inj hd).symm))
    · simp only [List.find?_cons, h] at hd
      rw [updateFirst_cons_neg p f a t h]
      exact List.mem_cons_of_mem _ (ih d hd)

theorem find?_key_unique {α β : Type} [DecidableEq β] (k : α → β) :
    ∀ l : List α, (l.map k).Nodup → ∀ d ∈ l,
      l.find? (fun e => k e == k d) = some d := by
  intro l
  induction l with
  | nil => intro _ d hd; exact absurd hd (List.not_mem_nil d)
  | cons a t ih =>
    intro hn d hd
    rw [List.map_cons, List.nodup_cons] at hn
    by_cases hda : d = a
    · rw [hda]
      simp [List.find?_cons]
    · have hdt : d ∈ t := (List.mem_cons.mp hd).resolve_left hda
      have hne : (k a == k d) = false := by
        apply beq_eq_false_iff_ne.mpr
        intro h
        exact hn.1 (h ▸ List.mem_map_of_mem k hdt)
      simp [List.find?_cons, hne, ih hn.2 d hdt]

theorem mem_updateFirst_key {α β : Type} [DecidableEq β] (k : α → β) (f : α → α) :
    ∀ l : List α, (l.map k).Nodup → ∀ d ∈ l,
      ∀ e ∈ updateFirst (fun x => k x == k d) f l,
        (e ∈ l ∧ ¬ k e = k d) ∨ e = f d := by
  intro l
  induction l with
  | nil =>
    intro _ d _ e he
    rw [updateFirst_nil] at he
    exact absurd he (List.not_mem_nil e)
  | cons a t ih =>
    intro hn d hd e he
    rw [List.map_cons, List.nodup_cons] at hn
    by_cases hda : d = a
    · rw [updateFirst_cons_pos _ f a t (by rw [hda]; simp)] at he
      rcases List.mem_cons.mp he with he1 | he1
      · right; rw [hda]; exact he1
      · refine Or.inl ⟨List.mem_cons_of_mem _ he1, fun hk => ?_⟩
        rw [hda] at hk
        exact hn.1 (hk ▸ List.mem_map_of_mem k he1)
    · have hdt : d ∈ t := (List.mem_cons.mp hd).resolve_left hda
      have hne : (k a == k d) = false := by
        apply beq_eq_false_iff_ne.mpr
        intro h
        exact hn.1 (h ▸ List.mem_map_of_mem k hdt)
      rw [updateFirst_cons_neg _ f a t hne] at he
      rcases List.mem_cons.mp he with he1 | he1
      · refine Or.inl ⟨List.mem_cons.mpr (Or.inl he1), fun hk => ?_⟩
        rw [he1] at hk
        exact hn.1 (hk ▸ List.mem_map_of_mem k hdt)
      · rcases ih hn.2 d hdt e he1 with ⟨h1, h2⟩ | h1
        · exact Or.inl ⟨List.mem_cons_of_mem _ h1, h2⟩
        · exact Or.inr h1

theorem find?_map_pres {α : Type} (p : α → Bool) (g : α → α)
    (hp : ∀ x, p (g x) = p x) (l : List α) :
    (l.map g).find? p = (l.find? p).map g := by
  have hcomp : (p ∘ g) = p := funext hp
  rw [List.find?_map, hcomp]

/-! ### The recompute algorithm establishes the ledger invariant -/

theorem recalcFields_inv (d : DailyExpense) : ledgerInv (recalcFields d) := by
  refine ⟨?_, ?_, ?_⟩
  · intro day hday
    simp only [recalcFields, List.mem_map] at hday
    rcases hday with ⟨day0, _, rfl⟩
    rfl
  · rfl
  · rfl

theorem recalc_set_eq (u0 : DailyExpense) :
    { u0 with days := (recalcFields u0).days,
              monthlyTotal := (recalcFields u0).monthlyTotal,
              balance := (recalcFields u0).balance } = recalcFields u0 := rfl

/-- Full characterization of the `$set`-then-`recalculateMonthTotals` pattern:
given unique document ids and a document matching the `(userId, month)` key,
the call returns the recomputed rewrite of that document, every other
document is untouched, and the id column and counter are unchanged. -/
theorem updateMonthAndRecalc_spec (s : ExpenseStore) (u m : String)
    (f : DailyExpense → DailyExpense) (hid : ∀ x, (f x).id = x.id)
    (hn : (s.docs.map (fun x => x.id)).Nodup) (doc : DailyExpense)
    (hf : s.docs.find? (keyMatch u m) = some doc) :
    (updateMonthAndRecalc s u m f).1 = some (recalcFields (f doc)) ∧
    (∀ e ∈ (updateMonthAndRecalc s u m f).2.docs,
      (e ∈ s.docs ∧ ¬ e.id = doc.id) ∨ e = recalcFields (f doc)) ∧
    (updateMonthAndRecalc s u m f).2.docs.map (fun x => x.id) =
      s.docs.map (fun x => x.id) ∧
    (updateMonthAndRecalc s u m f).2.nextId = s.nextId := by
  have h1 : findAndUpdate (keyMatch u m) f s.docs =
      (some (f doc), updateFirst (keyMatch u m) f s.docs) := by
    simp [findAndUpdate, hf]
  have hids1 : (updateFirst (keyMatch u m) f s.docs).map (fun x => x.id) =
      s.docs.map (fun x => x.id) := updateFirst_map_key _ _ _ hid s.docs
  have hn1 : ((updateFirst (keyMatch u m) f s.docs).map (fun x => x.id)).Nodup := by
    rw [hids1]; exact hn
  have hmem1 : f doc ∈ updateFirst (keyMatch u m) f s.docs :=
    find?_mem_updateFirst _ f s.docs doc hf
  have hfind2 : (updateFirst (keyMatch u m) f s.docs).find?
      (fun e => e.id == (f doc).id) = some (f doc) :=
    find?_key_unique (fun x => x.id) _ hn1 (f doc) hmem1
  have hu : updateMonthAndRecalc s u m f =
      (some (recalcFields (f doc)),
        { docs := updateFirst (fun e => e.id == (f doc).id)
            (fun e => { e with days := (recalcFields (f doc)).days,
                               monthlyTotal := (recalcFields (f doc)).monthlyTotal,
                               balance := (recalcFields (f doc)).balance })
            (updateFirst (keyMatch u m) f s.docs),
          nextId := s.nextId }) := by
    unfold updateMonthAndRecalc
    rw [h1]
    unfold recalculateMonthTotals findAndUpdate
    simp only [hfind2, Option.map_some', Option.getD_some, recalc_set_eq]
  refine ⟨by rw [hu], ?_, ?_, by rw [hu]⟩
  · intro e he
    rw [hu] at he
    simp only at he
    rcases mem_updateFirst_key (fun x => x.id) _ _ hn1 (f doc) hmem1 e he with
      ⟨he1, hne⟩ | he1
    · rcases mem_updateFirst _ f s.docs e he1 with h2 | ⟨d0, hd0, he2⟩
      · refine Or.inl ⟨h2, fun hidq => ?_⟩
        exact hne (by rw [hidq, hid doc])
      · exfalso
        rw [hf] at hd0
        have : e = f doc := by rw [he2, Option.some.inj hd0]
        exact hne (by rw [this])
    · rw [he1, recalc_set_eq]
      exact Or.inr rfl
  · rw [hu]
    simp only
    rw [updateFirst_map_key (fun x => x.id) (fun e => e.id == (f doc).id)
      (fun e => { e with days := (recalcFields (f doc)).days,
                         monthlyTotal := (recalcFields (f doc)).monthlyTotal,
                         balance := (recalcFields (f doc)).balance })
      (fun x => rfl) (updateFirst (keyMatch u m) f s.docs), hids1]

theorem updateFirst_eq_of_find?_none {α : Type} (p : α → Bool) (f : α → α) :
    ∀ l : List α, l.find? p = none → updateFirst p f l = l := by
  intro l
  induction l with
  | nil => intro _; rfl
  | cons a t ih =>
    intro h
    rw [List.find?_eq_none] at h
    have ha : p a = false := by
      have := h a (List.mem_cons_self a t)
      exact Bool.not_eq_true (p a) ▸ (by simpa using this)
    rw [updateFirst_cons_neg p f a t ha, ih]
    rw [List.find?_eq_none]
    intro x hx
    exact h x (List.mem_cons_of_mem _ hx)

theorem GoodStore_empty : GoodStore emptyStore := by
  refine ⟨List.nodup_nil, ?_, ?_⟩ <;>
    · intro d hd
      exact absurd hd (List.not_mem_nil d)

theorem GoodStore_createExpenseMonth (s : ExpenseStore) (u m : String)
    (sal : Option Int) (hg : GoodStore s) (doc : DailyExpense) (s1 : ExpenseStore)
    (h : createExpenseMonth s u m sal = .ok (doc, s1)) : GoodStore s1 := by
  obtain ⟨hn, hb, hinv⟩ := hg
  unfold createExpenseMonth at h
  cases hfm : findMonth s u m with
  | some d => rw [hfm] at h; exact absurd h (by simp)
  | none =>
    rw [hfm] at h
    simp only [Except.ok.injEq, Prod.mk.injEq] at h
    obtain ⟨hdoc, hs1⟩ := h
    rw [← hs1]
    refine ⟨?_, ?_, ?_⟩
    · rw [List.map_append, List.nodup_append]
      refine ⟨hn, List.nodup_singleton _, ?_⟩
      intro a ha hb2
      simp only [List.map_cons, List.map_nil, List.mem_singleton] at hb2
      rcases List.mem_map.mp ha with ⟨d0, hd0, rfl⟩
      exact absurd hb2 (Nat.ne_of_lt (hb d0 hd0))
    · intro d hd
      rcases List.mem_append.mp hd with hd1 | hd1
      · exact Nat.lt_succ_of_lt (hb d hd1)
      · rcases List.mem_singleton.mp hd1 with rfl
        exact Nat.lt_succ_self _
    · intro d hd
      rcases List.mem_append.mp hd with hd1 | hd1
      · exact hinv d hd1
      · rcases List.mem_singleton.mp hd1 with rfl
        exact ⟨by intro day hday; exact absurd hday (List.not_mem_nil day),
               by simp, by simp⟩

theorem GoodStore_updateMonthAndRecalc (s : ExpenseStore) (u m : String)
    (f : DailyExpense → DailyExpense) (hid : ∀ x, (f x).id = x.id)
    (hg : GoodStore s) : GoodStore (updateMonthAndRecalc s u m f).2 := by
  obtain ⟨hn, hb, hinv⟩ := hg
  cases hfm : s.docs.find? (keyMatch u m) with
  | none =>
    have hup : updateFirst (keyMatch u m) f s.docs = s.docs :=
      updateFirst_eq_of_find?_none _ f s.docs hfm
    have : updateMonthAndRecalc s u m f = (none, s) := by
      unfold updateMonthAndRecalc findAndUpdate
      rw [hfm, hup]
      rfl
    rw [this]
    exact ⟨hn, hb, hinv⟩
  | some doc =>
    obtain ⟨-, hmem, hids, hnext⟩ :=
      updateMonthAndRecalc_spec s u m f hid hn doc hfm
    have hdocmem : doc ∈ s.docs := List.mem_of_find?_eq_some hfm
    refine ⟨by rw [hids]; exact hn, ?_, ?_⟩
    · intro d hd
      rw [hnext]
      rcases hmem d hd with ⟨hd1, -⟩ | hd1
      · exact hb d hd1
      · have : d.id = doc.id := by rw [hd1]; exact hid doc
        rw [this]
        exact hb doc hdocmem
    · intro d hd
      rcases hmem d hd with ⟨hd1, -⟩ | hd1
      · exact hinv d hd1
      · rw [hd1]
        exact recalcFields_inv (f doc)

theorem GoodStore_applyOp (s : ExpenseStore) (op : LedgerOp)
    (hg : GoodStore s) : GoodStore (applyOp s op) := by
  cases op with
  | createMonth u m sal =>
    show GoodStore (match createExpenseMonth s u m sal with
      | .ok r => r.2
      | .error _ => s)
    cases hc : createExpenseMonth s u m sal with
    | error msg => exact hg
    | ok r => exact GoodStore_createExpenseMonth s u m sal hg r.1 r.2 (by rw [hc])
  | setSalary u m sal =>
    show GoodStore (updateExpenseMonthSalary s u m sal).2
    unfold updateExpenseMonthSalary
    cases hfm : findMonth s u m with
    | none => exact hg
    | some d => exact GoodStore_updateMonthAndRecalc s u m _ (fun x => rfl) hg
  | addDay u m date items =>
    show GoodStore (match addExpenseDay s u m date items with
      | .ok r => r.2
      | .error _ => s)
    cases hfm : findMonth s u m with
    | some monthDoc =>
      have heq : addExpenseDay s u m date items =
          .ok (updateMonthAndRecalc s u m
            (fun d => { d with days := buildUpdatedDays monthDoc.days date items })) := by
        unfold addExpenseDay
        rw [hfm]
      rw [heq]
      exact GoodStore_updateMonthAndRecalc s u m _ (fun x => rfl) hg
    | none =>
      cases hc : createExpenseMonth s u m (some 0) with
      | error msg =>
        have heq : addExpenseDay s u m date items = .error msg := by
          unfold addExpenseDay
          rw [hfm, hc]
        rw [heq]
        exact hg
      | ok r =>
        obtain ⟨doc1, s1⟩ := r
        have hg1 : GoodStore s1 :=
          GoodStore_createExpenseMonth s u m (some 0) hg doc1 s1 (by rw [hc])
        have hstep : addExpenseDay s u m date items =
            (match findMonth s1 u m with
              | none => .ok (none, s1)
              | some monthDoc =>
                .ok (updateMonthAndRecalc s1 u m
                  (fun d => { d with days := buildUpdatedDays monthDoc.days date items }))) := by
          unfold addExpenseDay
          rw [hfm, hc]
        cases hfm1 : findMonth s1 u m with
        | none =>
          rw [hstep, hfm1]
          exact hg1
        | some monthDoc =>
          rw [hstep, hfm1]
          exact GoodStore_updateMonthAndRecalc s1 u m _ (fun x => rfl) hg1
  | updateDay u m date items =>
    show GoodStore (updateExpenseDay s u m date items).2
    unfold updateExpenseDay
    cases hfm : findMonth s u m with
    | none => exact hg
    | some monthDoc =>
      by_cases hany : monthDoc.days.any (fun d => d.date == date)
      · simp only [hany, if_true]
        exact GoodStore_updateMonthAndRecalc s u m _ (fun x => rfl) hg
      · simp only [hany, if_false]
        exact hg
  | deleteDay u m date =>
    show GoodStore (deleteExpenseDay s u m date).2
    unfold deleteExpenseDay
    cases hfm : findMonth s u m with
    | none => exact hg
    | some monthDoc => exact GoodStore_updateMonthAndRecalc s u m _ (fun x => rfl) hg
  | deleteItem u m date itemId =>
    show GoodStore (deleteExpenseDayItem s u m date itemId).2
    unfold deleteExpenseDayItem
    cases hfm : findMonth s u m with
    | none => exact hg
    | some monthDoc =>
      by_cases hany : monthDoc.days.any (fun d => d.date == date)
      · simp only [hany, if_true]
        exact GoodStore_updateMonthAndRecalc s u m _ (fun x => rfl) hg
      · simp only [hany, if_false]
        exact hg

theorem GoodStore_runOps (ops : List LedgerOp) : GoodStore (runOps ops) := by
  have hgen : ∀ (l : List LedgerOp) (s : ExpenseStore), GoodStore s →
      GoodStore (l.foldl applyOp s) := by
    intro l
    induction l with
    | nil => intro s hs; exact hs
    | cons op t ih =>
      intro s hs
      exact ih (applyOp s op) (GoodStore_applyOp s op hs)
  exact hgen ops emptyStore GoodStore_empty

/-! ### Ledger helper lemmas for the per-operation contracts -/

theorem itemsTotal_append (a b : List ExpenseItem) :
    itemsTotal (a ++ b) = itemsTotal a + itemsTotal b := by
  unfold itemsTotal
  rw [List.map_append, List.sum_append]

theorem recalcFields_days_find? (X : DailyExpense) (date : String) :
    (recalcFields X).days.find? (fun dd => dd.date == date) =
      (X.days.find? (fun dd => dd.date == date)).map
        (fun day => { day with dayTotal := itemsTotal day.items }) := by
  show (X.days.map (fun day => { day with dayTotal := itemsTotal day.items })).find?
      (fun dd => dd.date == date) = _
  exact find?_map_pres (fun dd => dd.date == date)
    (fun day => { day with dayTotal := itemsTotal day.items }) (fun x => rfl) X.days

theorem any_of_find?_day {days : List ExpenseDayRec} {date : String}
    {day0 : ExpenseDayRec} (hd : days.find? (fun dd => dd.date == date) = some day0) :
    days.any (fun dd => dd.date == date) = true := by
  have hm := List.mem_of_find?_eq_some hd
  have hp := List.find?_some hd
  exact List.any_eq_true.mpr ⟨day0, hm, hp⟩

theorem filterDayItems_single (x0 : ExpenseItem) (itemId : String)
    (hid : x0.mongoId = some itemId ∨ (x0.mongoId = none ∧ itemId = "0")) :
    filterDayItems [x0] itemId = [] := by
  rcases hid with h | ⟨h, h2⟩
  · unfold filterDayItems
    simp [List.enum, List.enumFrom, List.filter_cons, h]
  · unfold filterDayItems
    rw [h2]
    simp only [List.enum, List.enumFrom, List.filter_cons, h]
    have h3 : toString (0 : Nat) = "0" := rfl
    simp [h3]

/-! ### EMI helper lemmas -/

theorem modifyAt_length {α : Type} (f : α → α) :
    ∀ (l : List α) (n : Nat), (modifyAt f l n).length = l.length := by
  intro l
  induction l with
  | nil => intro n; rfl
  | cons a t ih =>
    intro n
    cases n with
    | zero => rfl
    | succ n => simp [modifyAt, ih n]

theorem modifyAt_get? {α : Type} (f : α → α) :
    ∀ (l : List α) (n j : Nat), (modifyAt f l n).get? j =
      if j = n then (l.get? j).map f else l.get? j := by
  intro l
  induction l with
  | nil =>
    intro n j
    unfold modifyAt
    split <;> rfl
  | cons a t ih =>
    intro n j
    cases n with
    | zero =>
      cases j with
      | zero => rfl
      | succ j => simp [modifyAt]
    | succ n =>
      cases j with
      | zero => simp [modifyAt]
      | succ j =>
        show (modifyAt f t n).get? j = _
        rw [ih n j]
        by_cases h : j = n
        · rw [if_pos h, if_pos (by rw [h])]
          rfl
        · rw [if_neg h, if_neg (fun hc => h (Nat.succ_injective hc))]
          rfl

theorem paidSum_all_unpaid (l : List EMIScheduleItem)
    (h : ∀ it ∈ l, it.status = PayStatus.unpaid) : paidSum l = 0 := by
  induction l with
  | nil => rfl
  | cons a t ih =>
    have ha : (a.status == PayStatus.paid) = false := by
      rw [h a (List.mem_cons_self a t)]
      rfl
    unfold paidSum at ih ⊢
    rw [List.filter_cons]
    simp only [ha, Bool.false_eq_true, if_false]
    exact ih (fun it hit => h it (List.mem_cons_of_mem _ hit))

theorem paidSum_genSchedule (y m : Nat) (apm : Int) (dur : Nat) :
    paidSum (genSchedule y m apm dur) = 0 := by
  apply paidSum_all_unpaid
  intro it hit
  unfold genSchedule at hit
  rcases List.mem_map.mp hit with ⟨i, _, rfl⟩
  rfl

theorem find?_emiAfterStatusSet (es : List EMI) (id : Nat) (i : Nat)
    (st : PayStatus) :
    (emiAfterStatusSet es id i st).find? (fun e => e.id == id) =
      (es.find? (fun e => e.id == id)).map (fun e => setStatus st e i) := by
  unfold emiAfterStatusSet
  exact find?_updateFirst (fun e => e.id == id) (fun e => setStatus st e i)
    (fun x hx => hx) es

/-- Success shape of `updateEmiSchedule`: with the EMI found and the index in
range, the returned document is the found EMI with the status entry rewritten
and `remainingAmount` recomputed from the rewritten schedule. -/
theorem updateEmiSchedule_found (es : List EMI) (id : Nat) (i : Int)
    (st : PayStatus) (emi : EMI)
    (hf : es.find? (fun e => e.id == id) = some emi)
    (h0 : ¬ i < 0) (h1 : ¬ (emi.emiSchedule.length : Int) ≤ i) :
    updateEmiSchedule es id i st =
      (some { emi with
          emiSchedule := (setStatus st emi i.toNat).emiSchedule,
          remainingAmount :=
            emi.totalAmount - paidSum (setStatus st emi i.toNat).emiSchedule },
       updateFirst (fun e => e.id == id)
         (fun e => { e with remainingAmount :=
             emi.totalAmount - paidSum (setStatus st emi i.toNat).emiSchedule })
         (emiAfterStatusSet es id i.toNat st)) := by
  simp only [updateEmiSchedule, hf, eq_false (not_or.mpr ⟨h0, h1⟩), if_false,
    find?_emiAfterStatusSet, Option.map_some', findAndUpdate]
  rfl

/-! ### Claim theorems -/

/-- Claim C1: for every ledger state reachable from the empty collection by
any sequence of the mutating operations (createExpenseMonth,
updateExpenseMonthSalary, addExpenseDay, updateExpenseDay, deleteExpenseDay,
deleteExpenseDayItem), every resulting MonthLedger document satisfies: each
dayTotal is the sum of the amounts of the items of that day, monthlyTotal is
the sum of all dayTotal values, and balance equals salaryCredited minus
monthlyTotal. -/
theorem ledger_invariant_reachable (ops : List LedgerOp) (d : DailyExpense)
    (hd : d ∈ (runOps ops).docs) : ledgerInv d :=
  (GoodStore_runOps ops).2.2 d hd

theorem ledger_invariant_reachable_witness :
    baseDoc ∈ (runOps baseOps).docs ∧ ledgerInv baseDoc :=
  ⟨by decide, ledger_invariant_reachable baseOps baseDoc (by decide)⟩

/-- Claim C2: every EMI built by createEmi satisfies
remainingAmount = totalAmount minus the paid sum (all entries start unpaid)
and totalAmount = emiAmountPerMonth times emiDuration; every successful
updateEmiSchedule call returns a document that again satisfies the
remaining-amount equation and keeps totalAmount, emiAmountPerMonth and
emiDuration exactly as they were. -/
theorem emi_remaining_invariant :
    (∀ (id : Nat) (u t sm : String) (apm : Int) (dur : Nat) (e : EMI),
      createEmi id u t sm apm dur = some e →
        e.remainingAmount = e.totalAmount - paidSum e.emiSchedule ∧
        e.totalAmount = apm * (dur : Int)) ∧
    (∀ (es : List EMI) (id : Nat) (i : Int) (st : PayStatus) (e2 : EMI),
      (updateEmiSchedule es id i st).1 = some e2 →
        e2.remainingAmount = e2.totalAmount - paidSum e2.emiSchedule ∧
        ∀ emi, es.find? (fun e => e.id == id) = some emi →
          e2.totalAmount = emi.totalAmount ∧
          e2.emiAmountPerMonth = emi.emiAmountPerMonth ∧
          e2.emiDuration = emi.emiDuration) := by
  constructor
  · intro id u t sm apm dur e he
    unfold createEmi at he
    cases hp : parseMonth sm with
    | none => rw [hp] at he; exact absurd he (by simp)
    | some ym =>
      rw [hp] at he
      simp only [Option.map_some', Option.some.injEq] at he
      rw [← he]
      constructor
      · show apm * (dur : Int) =
          apm * (dur : Int) - paidSum (genSchedule ym.1 ym.2 apm dur)
        rw [paidSum_genSchedule]
        ring
      · rfl
  · intro es id i st e2 he
    cases hf : es.find? (fun e => e.id == id) with
    | none =>
      unfold updateEmiSchedule at he
      rw [hf] at he
      exact absurd he (by simp)
    | some emi =>
      by_cases hb : i < 0 ∨ (emi.emiSchedule.length : Int) ≤ i
      · have hnone : updateEmiSchedule es id i st = (none, es) := by
          simp only [updateEmiSchedule, hf]
          rw [if_pos hb]
        rw [hnone] at he
        exact absurd he (by simp)
      · rw [not_or] at hb
        rw [updateEmiSchedule_found es id i st emi hf hb.1 hb.2] at he
        simp only [Option.some.injEq] at he
        rw [← he]
        refine ⟨rfl, ?_⟩
        intro emi2 hf2
        have h3 : emi = emi2 := Option.some.inj hf2
        rw [← h3]
        exact ⟨rfl, rfl, rfl⟩

theorem emi_remaining_invariant_witness :
    (emiCreated.remainingAmount =
        emiCreated.totalAmount - paidSum emiCreated.emiSchedule ∧
      emiCreated.totalAmount = 100 * (4 : Int)) ∧
    (emiExPaid.remainingAmount =
        emiExPaid.totalAmount - paidSum emiExPaid.emiSchedule ∧
      emiExPaid.totalAmount = emiEx.totalAmount ∧
      emiExPaid.emiAmountPerMonth = emiEx.emiAmountPerMonth ∧
      emiExPaid.emiDuration = emiEx.emiDuration) :=
  ⟨emi_remaining_invariant.1 10 "u0" "loan" "2025-11" 100 4 emiCreated (by decide),
   by
     have h := emi_remaining_invariant.2 [emiEx] 1 0 PayStatus.paid emiExPaid
       (by decide)
     exact ⟨h.1, h.2 emiEx (by decide)⟩⟩

/-- Claim C3: for a parseable startMonth (y, m) and valid amount and
duration, createEmi yields a schedule of exactly emiDuration entries where
entry i is dated startMonth plus i calendar months (rolling over year
boundaries), with amount emiAmountPerMonth and status unpaid; in particular
startMonth 2025-11 with duration 4 yields the months 2025-11, 2025-12,
2026-01, 2026-02. -/
theorem createEmi_schedule_months (id : Nat) (u t sm : String) (apm : Int)
    (dur y m : Nat) (hp : parseMonth sm = some (y, m))
    (ha : 1 ≤ apm) (hd : 1 ≤ dur) :
    (∃ e, createEmi id u t sm apm dur = some e ∧
      e.emiSchedule.length = dur ∧
      ∀ i, i < dur → e.emiSchedule.get? i =
        some { month := monthString (addMonthsYM y m i).1 (addMonthsYM y m i).2,
               amount := apm, status := PayStatus.unpaid }) ∧
    (createEmi 10 "u0" "loan" "2025-11" 100 4).map
        (fun e => e.emiSchedule.map (fun it => it.month)) =
      some ["2025-11", "2025-12", "2026-01", "2026-02"] := by
  constructor
  · refine ⟨{ id := id, userId := u, emiTitle := t, startMonth := sm,
              emiAmountPerMonth := apm, emiDuration := dur,
              emiSchedule := genSchedule y m apm dur,
              remainingAmount := apm * (dur : Int),
              totalAmount := apm * (dur : Int) }, ?_, ?_, ?_⟩
    · unfold createEmi
      rw [hp]
      rfl
    · show (genSchedule y m apm dur).length = dur
      unfold genSchedule
      rw [List.length_map, List.length_range]
    · intro i hi
      show (genSchedule y m apm dur).get? i = _
      unfold genSchedule
      rw [List.get?_map, List.get?_range hi]
      rfl
  · decide

theorem createEmi_schedule_months_witness :
    (∃ e, createEmi 10 "u0" "loan" "2025-11" 100 4 = some e ∧
      e.emiSchedule.length = 4 ∧
      ∀ i, i < 4 → e.emiSchedule.get? i =
        some { month := monthString (addMonthsYM 2025 11 i).1
                 (addMonthsYM 2025 11 i).2,
               amount := 100, status := PayStatus.unpaid }) ∧
    (createEmi 10 "u0" "loan" "2025-11" 100 4).map
        (fun e => e.emiSchedule.map (fun it => it.month)) =
      some ["2025-11", "2025-12", "2026-01", "2026-02"] :=
  createEmi_schedule_months 10 "u0" "loan" "2025-11" 100 4 2025 11
    (by decide) (by decide) (by decide)

/-- Claim C5 counterexample: on a 2-installment EMI, index 2 (= duration) is
rejected by updateEmiSchedule with the same undefined (`none`) result that a
missing EMI id produces, and the route answers 200 with an empty JSON body
rather than a distinct InvalidInput (400) error; likewise index -1.  The
store is unchanged in every case. -/
theorem emi_index_out_of_range_counterexample :
    patchEmiScheduleRoute [emiEx] "u" 1 2 PayStatus.paid =
      (RouteResult.okJson (none : Option EMI), [emiEx]) ∧
    (∀ msg, (patchEmiScheduleRoute [emiEx] "u" 1 2 PayStatus.paid).1 ≠
      RouteResult.badRequest msg) ∧
    updateEmiSchedule [emiEx] 1 2 PayStatus.paid = (none, [emiEx]) ∧
    updateEmiSchedule [emiEx] 1 (-1) PayStatus.paid = (none, [emiEx]) ∧
    updateEmiSchedule [emiEx] 99 0 PayStatus.paid = (none, [emiEx]) := by
  refine ⟨by decide, ?_, by decide, by decide, by decide⟩
  intro msg h
  have h2 : (patchEmiScheduleRoute [emiEx] "u" 1 2 PayStatus.paid).1 =
      RouteResult.okJson (none : Option EMI) := by decide
  rw [h2] at h
  exact RouteResult.noConfusion h

/-- Claim C5 amended: for every EMI store, a setEntryStatus call whose index
is outside [0, duration) fails by resolving undefined (`none`) and leaves the
collection unchanged - the same failure value returned when no EMI with the
given id exists; no distinct InvalidInput error is produced. -/
theorem emi_index_out_of_range_amended (es : List EMI) (id : Nat) (i : Int)
    (st : PayStatus) :
    (es.find? (fun e => e.id == id) = none →
      updateEmiSchedule es id i st = (none, es)) ∧
    (∀ emi, es.find? (fun e => e.id == id) = some emi →
      (i < 0 ∨ (emi.emiSchedule.length : Int) ≤ i) →
      updateEmiSchedule es id i st = (none, es)) := by
  constructor
  · intro h
    unfold updateEmiSchedule
    rw [h]
  · intro emi h hb
    simp only [updateEmiSchedule, h]
    rw [if_pos hb]

theorem emi_index_out_of_range_amended_witness :
    updateEmiSchedule [emiEx] 1 2 PayStatus.paid = (none, [emiEx]) ∧
    updateEmiSchedule [emiEx] 1 (-1) PayStatus.paid = (none, [emiEx]) ∧
    updateEmiSchedule [emiEx] 99 0 PayStatus.paid = (none, [emiEx]) :=
  ⟨(emi_index_out_of_range_amended [emiEx] 1 2 PayStatus.paid).2 emiEx
      (by decide) (by decide),
   (emi_index_out_of_range_amended [emiEx] 1 (-1) PayStatus.paid).2 emiEx
      (by decide) (by decide),
   (emi_index_out_of_range_amended [emiEx] 99 0 PayStatus.paid).1 (by decide)⟩

/-- Claim C7: createExpenseMonth with initial salary s on a month with no
existing ledger returns a fresh MonthLedger with empty days, monthlyTotal 0,
salaryCredited s and balance s, appended to the collection; when a ledger for
(userId, month) already exists it throws the Conflict error ("Month already
exists", mapped to HTTP 409 by the route) and the collection is unchanged. -/
theorem createMonth_spec (s : ExpenseStore) (u m : String) (sal : Int) :
    (findMonth s u m = none →
      ∃ doc s1, createExpenseMonth s u m (some sal) = .ok (doc, s1) ∧
        doc.userId = u ∧ doc.month = m ∧ doc.days = [] ∧ doc.monthlyTotal = 0 ∧
        doc.salaryCredited = sal ∧ doc.balance = sal ∧
        s1.docs = s.docs ++ [doc]) ∧
    (∀ d0, findMonth s u m = some d0 →
      ∀ salOpt, createExpenseMonth s u m salOpt = .error "Month already exists" ∧
        applyOp s (LedgerOp.createMonth u m salOpt) = s) := by
  constructor
  · intro h
    have heq : createExpenseMonth s u m (some sal) =
        .ok (mkFreshDoc s u m sal,
             { docs := s.docs ++ [mkFreshDoc s u m sal],
               nextId := s.nextId + 1 }) := by
      unfold createExpenseMonth
      rw [h]
      rfl
    exact ⟨_, _, heq, rfl, rfl, rfl, rfl, rfl, rfl, rfl⟩
  · intro d0 h salOpt
    have heq : createExpenseMonth s u m salOpt = .error "Month already exists" := by
      unfold createExpenseMonth
      rw [h]
    refine ⟨heq, ?_⟩
    show (match createExpenseMonth s u m salOpt with
      | .ok r => r.2
      | .error _ => s) = s
    rw [heq]

theorem createMonth_spec_witness :
    (∃ doc s1, createExpenseMonth emptyStore "u" "2025-06" (some 500) =
        .ok (doc, s1) ∧
      doc.userId = "u" ∧ doc.month = "2025-06" ∧ doc.days = [] ∧
      doc.monthlyTotal = 0 ∧ doc.salaryCredited = 500 ∧ doc.balance = 500 ∧
      s1.docs = emptyStore.docs ++ [doc]) ∧
    (createExpenseMonth baseStore "u" "2025-06" (some 0) =
        .error "Month already exists" ∧
      applyOp baseStore (LedgerOp.createMonth "u" "2025-06" (some 0)) =
        baseStore) :=
  ⟨(createMonth_spec emptyStore "u" "2025-06" 500).1 (by decide),
   (createMonth_spec baseStore "u" "2025-06" 0).2 baseDoc (by decide) (some 0)⟩

/-- Claim C10: a successful setEntryStatus call changes only the status of
the targeted schedule entry and remainingAmount: the id, userId, title,
startMonth, emiAmountPerMonth, emiDuration and totalAmount of the EMI, the
month and amount of every schedule entry (the targeted one included), and the
status of every other entry are unchanged. -/
theorem updateEmiSchedule_frame (es : List EMI) (id : Nat) (i : Int)
    (st : PayStatus) (emi : EMI)
    (hf : es.find? (fun e => e.id == id) = some emi)
    (h0 : 0 ≤ i) (h1 : i < (emi.emiSchedule.length : Int)) :
    ∃ e2, (updateEmiSchedule es id i st).1 = some e2 ∧
      e2.id = emi.id ∧ e2.userId = emi.userId ∧ e2.emiTitle = emi.emiTitle ∧
      e2.startMonth = emi.startMonth ∧
      e2.emiAmountPerMonth = emi.emiAmountPerMonth ∧
      e2.emiDuration = emi.emiDuration ∧ e2.totalAmount = emi.totalAmount ∧
      e2.emiSchedule.length = emi.emiSchedule.length ∧
      (∀ j, (e2.emiSchedule.get? j).map (fun it => it.month) =
        (emi.emiSchedule.get? j).map (fun it => it.month)) ∧
      (∀ j, (e2.emiSchedule.get? j).map (fun it => it.amount) =
        (emi.emiSchedule.get? j).map (fun it => it.amount)) ∧
      (∀ j, ¬ j = i.toNat →
        (e2.emiSchedule.get? j).map (fun it => it.status) =
          (emi.emiSchedule.get? j).map (fun it => it.status)) := by
  have h0x : ¬ i < 0 := not_lt.mpr h0
  have h1x : ¬ (emi.emiSchedule.length : Int) ≤ i := not_le.mpr h1
  rw [updateEmiSchedule_found es id i st emi hf h0x h1x]
  refine ⟨_, rfl, rfl, rfl, rfl, rfl, rfl, rfl, rfl, ?_, ?_, ?_, ?_⟩
  · show (modifyAt (fun it => { it with status := st })
      emi.emiSchedule i.toNat).length = emi.emiSchedule.length
    exact modifyAt_length _ emi.emiSchedule i.toNat
  · intro j
    show ((modifyAt (fun it => { it with status := st })
        emi.emiSchedule i.toNat).get? j).map (fun it => it.month) = _
    rw [modifyAt_get?]
    by_cases h : j = i.toNat
    · rw [if_pos h]
      cases emi.emiSchedule.get? j <;> rfl
    · rw [if_neg h]
  · intro j
    show ((modifyAt (fun it => { it with status := st })
        emi.emiSchedule i.toNat).get? j).map (fun it => it.amount) = _
    rw [modifyAt_get?]
    by_cases h : j = i.toNat
    · rw [if_pos h]
      cases emi.emiSchedule.get? j <;> rfl
    · rw [if_neg h]
  · intro j hj
    show ((modifyAt (fun it => { it with status := st })
        emi.emiSchedule i.toNat).get? j).map (fun it => it.status) = _
    rw [modifyAt_get?, if_neg hj]

/-- Claim C4: on a date that already has a Day, addExpenseDay appends the new
items after the existing ones (so items [A] then [B] on the same date yield
items [A, B] with dayTotal the sum of both amounts), while updateExpenseDay
on an existing Day replaces the item list entirely (items become [B] only,
with dayTotal recomputed from [B]). -/
theorem addDay_appends_updateDay_replaces (s : ExpenseStore)
    (u m date : String) (newItems : List ExpenseItem)
    (hn : (s.docs.map (fun x => x.id)).Nodup) (doc : DailyExpense)
    (hfm : findMonth s u m = some doc) (day0 : ExpenseDayRec)
    (hd : doc.days.find? (fun dd => dd.date == date) = some day0) :
    (∃ d1 s1, addExpenseDay s u m date newItems = .ok (some d1, s1) ∧
      d1.days.find? (fun dd => dd.date == date) =
        some { date := day0.date, items := day0.items ++ newItems,
               dayTotal := itemsTotal day0.items + itemsTotal newItems }) ∧
    (∃ d2 s2, updateExpenseDay s u m date newItems = (some d2, s2) ∧
      d2.days.find? (fun dd => dd.date == date) =
        some { date := date, items := newItems,
               dayTotal := itemsTotal newItems }) := by
  have hany : doc.days.any (fun dd => dd.date == date) = true := any_of_find?_day hd
  constructor
  · have heq : addExpenseDay s u m date newItems =
        .ok (updateMonthAndRecalc s u m
          (setDays (buildUpdatedDays doc.days date newItems))) := by
      unfold addExpenseDay
      rw [hfm]
      rfl
    have hspec := (updateMonthAndRecalc_spec s u m
      (setDays (buildUpdatedDays doc.days date newItems))
      (fun x => rfl) hn doc hfm).1
    refine ⟨recalcFields (setDays (buildUpdatedDays doc.days date newItems) doc),
      (updateMonthAndRecalc s u m
        (setDays (buildUpdatedDays doc.days date newItems))).2, ?_, ?_⟩
    · rw [heq]
      have hpair : updateMonthAndRecalc s u m
          (setDays (buildUpdatedDays doc.days date newItems)) =
          (some (recalcFields (setDays (buildUpdatedDays doc.days date newItems) doc)),
           (updateMonthAndRecalc s u m
             (setDays (buildUpdatedDays doc.days date newItems))).2) := by
        rw [← hspec]
      rw [hpair]
    · rw [recalcFields_days_find?]
      show ((buildUpdatedDays doc.days date newItems).find?
          (fun dd => dd.date == date)).map
          (fun day => { day with dayTotal := itemsTotal day.items }) = _
      unfold buildUpdatedDays
      rw [if_pos hany,
        find?_updateFirst (fun dd => dd.date == date)
          (fun dd => { dd with items := dd.items ++ newItems })
          (fun x hx => hx) doc.days,
        hd]
      simp only [Option.map_some']
      rw [itemsTotal_append]
  · have hstep : updateExpenseDay s u m date newItems =
        (if doc.days.any (fun dd => dd.date == date) then
          updateMonthAndRecalc s u m
            (setDays (updateFirst (fun dd => dd.date == date)
              (fun _ => { date := date, items := newItems,
                          dayTotal := itemsTotal newItems }) doc.days))
        else (none, s)) := by
      unfold updateExpenseDay
      rw [hfm]
      rfl
    have hspec := (updateMonthAndRecalc_spec s u m
      (setDays (updateFirst (fun dd => dd.date == date)
        (fun _ => { date := date, items := newItems,
                    dayTotal := itemsTotal newItems }) doc.days))
      (fun x => rfl) hn doc hfm).1
    rw [hstep, if_pos hany]
    refine ⟨recalcFields (setDays (updateFirst (fun dd => dd.date == date)
        (fun _ => { date := date, items := newItems,
                    dayTotal := itemsTotal newItems }) doc.days) doc),
      (updateMonthAndRecalc s u m
        (setDays (updateFirst (fun dd => dd.date == date)
          (fun _ => { date := date, items := newItems,
                      dayTotal := itemsTotal newItems }) doc.days))).2, ?_, ?_⟩
    · have hpair : updateMonthAndRecalc s u m
          (setDays (updateFirst (fun dd => dd.date == date)
            (fun _ => { date := date, items := newItems,
                        dayTotal := itemsTotal newItems }) doc.days)) =
          (some (recalcFields (setDays (updateFirst (fun dd => dd.date == date)
            (fun _ => { date := date, items := newItems,
                        dayTotal := itemsTotal newItems }) doc.days) doc)),
           (updateMonthAndRecalc s u m
             (setDays (updateFirst (fun dd => dd.date == date)
               (fun _ => { date := date, items := newItems,
                           dayTotal := itemsTotal newItems }) doc.days))).2) := by
        rw [← hspec]
      rw [hpair]
    · rw [recalcFields_days_find?]
      show ((updateFirst (fun dd => dd.date == date)
          (fun _ => { date := date, items := newItems,
                      dayTotal := itemsTotal newItems }) doc.days).find?
          (fun dd => dd.date == date)).map
          (fun day => { day with dayTotal := itemsTotal day.items }) = _
      rw [find?_updateFirst (fun dd => dd.date == date)
          (fun _ => { date := date, items := newItems,
                      dayTotal := itemsTotal newItems })
          (fun x _ => beq_self_eq_true date) doc.days,
        hd]
      rfl

theorem addDay_appends_updateDay_replaces_witness :
    (∃ d1 s1, addExpenseDay baseStore "u" "2025-06" "2025-06-05" [taxiItem] =
        .ok (some d1, s1) ∧
      d1.days.find? (fun dd => dd.date == "2025-06-05") =
        some { date := "2025-06-05", items := [foodItem] ++ [taxiItem],
               dayTotal := itemsTotal [foodItem] + itemsTotal [taxiItem] }) ∧
    (∃ d2 s2, updateExpenseDay baseStore "u" "2025-06" "2025-06-05" [taxiItem] =
        (some d2, s2) ∧
      d2.days.find? (fun dd => dd.date == "2025-06-05") =
        some { date := "2025-06-05", items := [taxiItem],
               dayTotal := itemsTotal [taxiItem] }) :=
  addDay_appends_updateDay_replaces baseStore "u" "2025-06" "2025-06-05"
    [taxiItem] (by decide) baseDoc (by decide)
    { date := "2025-06-05", items := [foodItem], dayTotal := 200 } (by decide)

/-- Claim C6 counterexample: with a ledger for (u, 2025-06) holding only the
day 2025-06-05, deleting the absent day 2025-06-06 does NOT fail with
NotFound: the storage call resolves the unchanged document and the route
answers 200 with the document as JSON body; the store is unchanged. -/
theorem deleteDay_missing_day_counterexample :
    (deleteExpenseDay baseStore "u" "2025-06" "2025-06-06").1 = some baseDoc ∧
    deleteExpenseDayRoute baseStore "u" "2025-06" "2025-06-06" =
      (RouteResult.okJson baseDoc, baseStore) := by
  constructor <;> decide

/-- Claim C6 amended: deleteExpenseDay fails (resolves `none`, mapped to 404
by the route) exactly when no ledger exists for (userId, month), and then
leaves the store unchanged; when the ledger exists but holds no Day with the
given date, the call succeeds, returning the ledger with its fields
recomputed and its day set unchanged. -/
theorem deleteDay_notfound_amended (s : ExpenseStore) (u m date : String) :
    (findMonth s u m = none → deleteExpenseDay s u m date = (none, s)) ∧
    (∀ doc, (s.docs.map (fun x => x.id)).Nodup → findMonth s u m = some doc →
      (∀ day ∈ doc.days, ¬ day.date = date) →
      (deleteExpenseDay s u m date).1 = some (recalcFields doc)) := by
  constructor
  · intro h
    unfold deleteExpenseDay
    rw [h]
  · intro doc hn hfm hnone
    have hfilter : doc.days.filter (fun dd => !(dd.date == date)) = doc.days := by
      apply List.filter_eq_self.mpr
      intro a ha
      simp [hnone a ha]
    have heq : deleteExpenseDay s u m date =
        updateMonthAndRecalc s u m
          (setDays (doc.days.filter (fun dd => !(dd.date == date)))) := by
      unfold deleteExpenseDay
      rw [hfm]
      rfl
    rw [heq]
    have hspec := (updateMonthAndRecalc_spec s u m
      (setDays (doc.days.filter (fun dd => !(dd.date == date))))
      (fun x => rfl) hn doc hfm).1
    rw [hspec]
    have hfd : setDays (doc.days.filter (fun dd => !(dd.date == date))) doc = doc := by
      show ({ doc with days := doc.days.filter (fun dd => !(dd.date == date)) } :
        DailyExpense) = doc
      rw [hfilter]
    rw [hfd]

theorem deleteDay_notfound_amended_witness :
    deleteExpenseDay emptyStore "u" "2025-06" "2025-06-06" = (none, emptyStore) ∧
    (deleteExpenseDay baseStore "u" "2025-06" "2025-06-06").1 =
      some (recalcFields baseDoc) :=
  ⟨(deleteDay_notfound_amended emptyStore "u" "2025-06" "2025-06-06").1
      (by decide),
   (deleteDay_notfound_amended baseStore "u" "2025-06" "2025-06-06").2 baseDoc
      (by decide) (by decide) (by decide)⟩

/-- Claim C8 counterexample: called directly, the storage core addExpenseDay
accepts a date whose YYYY-MM prefix differs from the target month - it
creates the 2025-06 ledger and inserts the 2025-07-01 day instead of failing
with InvalidInput, so the date-belongs-to-month check is not performed by the
core. -/
theorem addExpenseDay_accepts_mismatched_date_counterexample :
    (addExpenseDay emptyStore "u" "2025-06" "2025-07-01" [foodItem]).map
        (fun r => r.1.map (fun d => (d.month, d.days.map (fun day => day.date)))) =
      .ok (some ("2025-06", ["2025-07-01"])) := by
  decide

/-- Claim C8 amended: a request whose date prefix differs from the target
month is rejected with InvalidInput (HTTP 400) by the route handler before
any storage call, and no ledger document is created or modified; the check
lives only in the route layer - the storage core itself performs no
date-belongs-to-month validation and accepts a mismatched date when called
directly. -/
theorem mismatched_date_rejected_by_route (s : ExpenseStore)
    (u month date : String) (items : List ExpenseItem)
    (hm : isMonthFormatted month = true)
    (hv : validInsertExpenseDay date items = true)
    (hne : (date.take 7 == month) = false) :
    postExpenseDayRoute s u month date items =
      (RouteResult.badRequest "Date must belong to the specified month", s) := by
  simp [postExpenseDayRoute, hm, hv, hne]

theorem mismatched_date_rejected_by_route_witness :
    postExpenseDayRoute emptyStore "u" "2025-06" "2025-07-01" [foodItem] =
      (RouteResult.badRequest "Date must belong to the specified month",
       emptyStore) :=
  mismatched_date_rejected_by_route emptyStore "u" "2025-06" "2025-07-01"
    [foodItem] (by decide) (by decide) (by decide)

/-- Claim C9: deleting (by Mongo id, or by the positional fallback) the only
item of a Day succeeds and leaves the Day present with an empty item list and
dayTotal 0 - the empty Day is not auto-removed - and the returned document
satisfies the recomputed ledger invariant (monthlyTotal and balance
re-derived). -/
theorem deleteItem_last_item_spec (s : ExpenseStore) (u m date itemId : String)
    (hn : (s.docs.map (fun x => x.id)).Nodup) (doc : DailyExpense)
    (hfm : findMonth s u m = some doc) (day0 : ExpenseDayRec)
    (hd : doc.days.find? (fun dd => dd.date == date) = some day0)
    (x0 : ExpenseItem) (hx : day0.items = [x0])
    (hid : x0.mongoId = some itemId ∨ (x0.mongoId = none ∧ itemId = "0")) :
    ∃ d1, (deleteExpenseDayItem s u m date itemId).1 = some d1 ∧
      d1.days.find? (fun dd => dd.date == date) =
        some { date := day0.date, items := [], dayTotal := 0 } ∧
      ledgerInv d1 := by
  have hany : doc.days.any (fun dd => dd.date == date) = true := any_of_find?_day hd
  have hstep : deleteExpenseDayItem s u m date itemId =
      (if doc.days.any (fun dd => dd.date == date) then
        updateMonthAndRecalc s u m
          (setDays (updateFirst (fun dd => dd.date == date)
            (fun dd => { dd with items := filterDayItems dd.items itemId })
            doc.days))
      else (none, s)) := by
    unfold deleteExpenseDayItem
    rw [hfm]
    rfl
  have hspec := (updateMonthAndRecalc_spec s u m
    (setDays (updateFirst (fun dd => dd.date == date)
      (fun dd => { dd with items := filterDayItems dd.items itemId }) doc.days))
    (fun x => rfl) hn doc hfm).1
  rw [hstep, if_pos hany]
  refine ⟨recalcFields (setDays (updateFirst (fun dd => dd.date == date)
      (fun dd => { dd with items := filterDayItems dd.items itemId })
      doc.days) doc), hspec, ?_, recalcFields_inv _⟩
  rw [recalcFields_days_find?]
  show ((updateFirst (fun dd => dd.date == date)
      (fun dd => { dd with items := filterDayItems dd.items itemId })
      doc.days).find? (fun dd => dd.date == date)).map
      (fun day => { day with dayTotal := itemsTotal day.items }) = _
  rw [find?_updateFirst (fun dd => dd.date == date)
      (fun dd => { dd with items := filterDayItems dd.items itemId })
      (fun x hx => hx) doc.days,
    hd]
  simp only [Option.map_some']
  rw [hx, filterDayItems_single x0 itemId hid]
  rfl

theorem deleteItem_last_item_spec_witness :
    ∃ d1, (deleteExpenseDayItem baseStore "u" "2025-06" "2025-06-05" "0").1 =
        some d1 ∧
      d1.days.find? (fun dd => dd.date == "2025-06-05") =
        some { date := "2025-06-05", items := [], dayTotal := 0 } ∧
      ledgerInv d1 :=
  deleteItem_last_item_spec baseStore "u" "2025-06" "2025-06-05" "0"
    (by decide) baseDoc (by decide)
    { date := "2025-06-05", items := [foodItem], dayTotal := 200 } (by decide)
    foodItem (by decide) (by decide)

theorem updateEmiSchedule_frame_witness :
    ∃ e2, (updateEmiSchedule [emiEx] 1 0 PayStatus.paid).1 = some e2 ∧
      e2.id = emiEx.id ∧ e2.userId = emiEx.userId ∧
      e2.emiTitle = emiEx.emiTitle ∧ e2.startMonth = emiEx.startMonth ∧
      e2.emiAmountPerMonth = emiEx.emiAmountPerMonth ∧
      e2.emiDuration = emiEx.emiDuration ∧ e2.totalAmount = emiEx.totalAmount ∧
      e2.emiSchedule.length = emiEx.emiSchedule.length ∧
      (∀ j, (e2.emiSchedule.get? j).map (fun it => it.month) =
        (emiEx.emiSchedule.get? j).map (fun it => it.month)) ∧
      (∀ j, (e2.emiSchedule.get? j).map (fun it => it.amount) =
        (emiEx.emiSchedule.get? j).map (fun it => it.amount)) ∧
      (∀ j, ¬ j = (0 : Int).toNat →
        (e2.emiSchedule.get? j).map (fun it => it.status) =
          (emiEx.emiSchedule.get? j).map (fun it => it.status)) :=
  updateEmiSchedule_frame [emiEx] 1 0 PayStatus.paid emiEx
    (by decide) (by decide) (by decide)

end FinanceManager
